import Mathlib

/-!
Verification of `genomics_scripts`: a VCF-to-TAB extractor
(`02_python_script_used_to_convert_vcf_to_tab.py`) and an allele-frequency
calculator (`02_python_script_used_to_calculate_allele_freq_fromtabfiles.py`).

The Python scripts are shallowly embedded: strings are `String`, Python
`str.strip`/`str.split`/`str.replace`/`int(...)` are modelled character by
character, and the calculator's per-line control flow (its `try`/`except
(ValueError, IndexError)` block) is an explicit result type distinguishing a
written output line, a caught-and-logged skip, and the two uncaught faults
(index error outside the `try`, division by zero inside it).
-/

set_option autoImplicit false

namespace Genomics

/-- The ASCII whitespace characters stripped by Python `str.strip()`. -/
def isPySpace (c : Char) : Bool :=
  c = ' ' || c = '\t' || c = '\n' || c = '\r' || c = '\x0b' || c = '\x0c'

/-- Python `str.strip()` on a character list: drop leading and trailing
whitespace. -/
def stripList (l : List Char) : List Char :=
  ((l.dropWhile isPySpace).reverse.dropWhile isPySpace).reverse

/-- Python `line.strip()`. -/
def pyStrip (s : String) : String := ⟨stripList s.data⟩

/-- Python `s.split(sep)` for a one-character separator, on character lists:
splits at every occurrence of `c`, keeping empty pieces, and `[]` gives
`[[]]` just as `''.split(sep)` gives `['']`. -/
def splitCh (c : Char) : List Char → List (List Char)
  | [] => [[]]
  | x :: xs =>
    match splitCh c xs with
    | [] => [[]]
    | y :: ys => if x = c then [] :: y :: ys else (x :: y) :: ys

/-- Python `s.split(sep)` for a one-character separator. -/
def pySplit (c : Char) (s : String) : List String :=
  (splitCh c s.data).map String.mk

/-- `leadsWith p l` is true when `p` is an initial segment of `l`
(Python `l.startswith(p)` at the character-list level). -/
def leadsWith : List Char → List Char → Bool
  | [], _ => true
  | _ :: _, [] => false
  | a :: as, b :: bs => if a = b then leadsWith as bs else false

/-- Python `line.startswith(p)`. -/
def pyStartsWith (s p : String) : Bool := leadsWith p.data s.data

/-- Python `name.endswith(p)`. -/
def pyEndsWith (s p : String) : Bool := leadsWith p.data.reverse s.data.reverse

/-- `hasSub needle hay` is true when `needle` occurs as a contiguous
sublist of `hay` (Python `needle in hay`). -/
def hasSub (needle : List Char) : List Char → Bool
  | [] => needle.isEmpty
  | x :: xs => leadsWith needle (x :: xs) || hasSub needle xs

/-- Python `sep.join(parts)`. -/
def pyJoin (sep : String) : List String → String
  | [] => ""
  | [x] => x
  | x :: y :: xs => x ++ sep ++ pyJoin sep (y :: xs)

/-- Python `s.replace(old, new)` on character lists, scanning left to right
and replacing every non-overlapping occurrence; `fuel` bounds the recursion
and is instantiated with the length of the scanned list, which suffices since
every step consumes at least one character. -/
def replaceAux (old new : List Char) : Nat → List Char → List Char
  | _, [] => []
  | 0, l => l
  | fuel + 1, x :: xs =>
    if !old.isEmpty && leadsWith old (x :: xs) then
      new ++ replaceAux old new fuel (xs.drop (old.length - 1))
    else
      x :: replaceAux old new fuel xs

/-- Python `s.replace(old, new)`. -/
def pyReplace (s old new : String) : String :=
  ⟨replaceAux old.data new.data s.data.length s.data⟩

/-- The decimal digit character for `n < 10`. -/
def digCh (n : Nat) : Char := Char.ofNat (48 + n)

/-- Decimal digits of `n`, most significant first, prepended to `acc`;
`fuel` bounds the recursion and `n + 1` steps always suffice. -/
def natCharsAux : Nat → Nat → List Char → List Char
  | 0, _, acc => acc
  | fuel + 1, n, acc =>
    if n < 10 then digCh n :: acc
    else natCharsAux fuel (n / 10) (digCh (n % 10) :: acc)

/-- Decimal representation of a natural number. -/
def natStr (n : Nat) : String := ⟨natCharsAux (n + 1) n []⟩

/-- Python `int(s)`: optional surrounding whitespace, an optional single
sign, then a nonempty run of decimal digits. -/
def pyInt? (s : String) : Option Int :=
  let digitsVal? : List Char → Option Nat := fun l =>
    if l.isEmpty then none
    else if l.all Char.isDigit then
      some (l.foldl (fun acc c => 10 * acc + (c.toNat - 48)) 0)
    else none
  match stripList s.data with
  | '-' :: ds => (digitsVal? ds).map (fun n => -(n : Int))
  | '+' :: ds => (digitsVal? ds).map (fun n => (n : Int))
  | ds => (digitsVal? ds).map (fun n => (n : Int))

/-- Round `n / d` to the nearest integer, ties to even (the rounding used
when a decimal value exactly between two candidates is printed by `%.2f`). -/
def rheNat (n d : Nat) : Nat :=
  let q := n / d
  let r := n % d
  if 2 * r < d then q
  else if d < 2 * r then q + 1
  else if q % 2 = 0 then q else q + 1

/-- The Python f-string `f"{freq:.2f}"` for `freq = (100 * alt) / depth`
(true division), modelled as exact rational rounding to hundredths with a
sign taken from the sign of the quotient (Python prints `-0.00` when the
float quotient is negative zero, i.e. when `alt = 0` and `depth < 0`). -/
def formatFreq2 (alt depth : Int) : String :=
  let h := rheNat (10000 * alt.natAbs) depth.natAbs
  let neg : Bool := if 0 < depth then decide (alt < 0) else decide (0 ≤ alt)
  (if neg then "-" else "") ++ natStr (h / 100) ++ "." ++
    (if h % 100 < 10 then "0" else "") ++ natStr (h % 100)

/-- Python `map(int, s.split(","))` unpacked into exactly two names: `none`
models the `ValueError` raised when a piece is not an integer or the number
of pieces is not two. -/
def parseAD (s : String) : Option (Int × Int) :=
  match pySplit ',' s with
  | [x, y] =>
    match pyInt? x, pyInt? y with
    | some r, some a => some (r, a)
    | _, _ => none
  | _ => none

/-- Outcome of the calculator's loop body for one line:
`written` (the `f_out.write` of the success path), `skipped` (a
`ValueError`/`IndexError` caught by the `except` clause, which prints a
diagnostic and continues), `crashIndex` (an `IndexError` from `fields[8]` or
`fields[9]`, raised before the `try` block and hence uncaught) and
`crashDiv` (the `ZeroDivisionError` of `(100 * alt_count) / total_depth`,
which the `except (ValueError, IndexError)` clause does not catch). -/
inductive LineResult where
  | written (out : String)
  | skipped
  | crashIndex
  | crashDiv
deriving DecidableEq

/-- The body of the `for line in f_in` loop of `compute_allele_frequency`. -/
def processLine (line : String) : LineResult :=
  let fields := pySplit '\t' (pyStrip line)
  match fields[8]? with
  | none => .crashIndex
  | some fmt8 =>
    match fields[9]? with
    | none => .crashIndex
    | some sample9 =>
      let info_fields := pySplit ':' fmt8
      let info_values := pySplit ':' sample9
      match List.findIdx? (fun s => s = "AD") info_fields with
      | none => .skipped
      | some ad_index =>
        match List.findIdx? (fun s => s = "DP") info_fields with
        | none => .skipped
        | some dp_index =>
          match info_values[ad_index]? with
          | none => .skipped
          | some ad_val =>
            match parseAD ad_val with
            | none => .skipped
            | some (_ref_count, alt_count) =>
              match info_values[dp_index]? with
              | none => .skipped
              | some dp_val =>
                match pyInt? dp_val with
                | none => .skipped
                | some total_depth =>
                  if total_depth = 0 then .crashDiv
                  else .written (pyStrip line ++ "\t" ++
                    formatFreq2 alt_count total_depth ++ "%\n")

/-- Outcome of `compute_allele_frequency` on a whole file: the lines written
to the output file and the diagnostics printed to the console, with
`crashed` marking that an uncaught exception aborted the file at that
point (no further line is processed). -/
inductive FileResult where
  | ok (out diags : List String)
  | crashed (out diags : List String)
deriving DecidableEq

/-- `compute_allele_frequency input_file` over the list of input lines. -/
def runFile (input_file : String) : List String → FileResult
  | [] => .ok [] []
  | line :: rest =>
    match processLine line with
    | .written s =>
      match runFile input_file rest with
      | .ok out diags => .ok (s :: out) diags
      | .crashed out diags => .crashed (s :: out) diags
    | .skipped =>
      match runFile input_file rest with
      | .ok out diags =>
          .ok out (("Error processing line: " ++ pyStrip line ++ " in " ++
            input_file) :: diags)
      | .crashed out diags =>
          .crashed out (("Error processing line: " ++ pyStrip line ++ " in " ++
            input_file) :: diags)
    | .crashIndex => .crashed [] []
    | .crashDiv => .crashed [] []

/-- Output lines of a file run. -/
def outLines : FileResult → List String
  | .ok out _ => out
  | .crashed out _ => out

/-- Diagnostic lines of a file run. -/
def diagLines : FileResult → List String
  | .ok _ diags => diags
  | .crashed _ diags => diags

/-- Whether the file run was aborted by an uncaught exception. -/
def isAborted : FileResult → Bool
  | .ok _ _ => false
  | .crashed _ _ => true

/-- The body of the `for line in infile` loop of `extract_vcf_info`:
`none` when the line is skipped, otherwise the written output line. -/
def extract_line (line : String) : Option String :=
  if pyStartsWith line "##" then none
  else if pyStartsWith line "#CHROM" then
    some (pyJoin "\t" ((pySplit '\t' (pyStrip line)).take 2) ++ "\n")
  else
    some (pyJoin "\t" ((pySplit '\t' (pyStrip line)).take 2) ++ "\n")

/-- `extract_vcf_info` over the list of input lines: the written output
lines. -/
def extract_vcf_info (lines : List String) : List String :=
  lines.filterMap extract_line

/-- The output filename the extractor driver derives from an input
filename: `filename.replace('.vcf', '.tab')`. -/
def outputTabName (filename : String) : String := pyReplace filename ".vcf" ".tab"

/-- The console lines printed by the extractor driver over a directory
listing: one `Processed {input} -> {output}` line per `.vcf` file, the
paths being `os.path.join(".", name)`. -/
def extractorConsole (listing : List String) : List String :=
  (listing.filter (fun f => pyEndsWith f ".vcf")).map
    (fun f => "Processed ./" ++ f ++ " -> ./" ++ outputTabName f)

/-- Modelled from the spec's words for comparison (claim C6 speaks of the
line "trimmed of trailing whitespace"): trimming of trailing whitespace
only, leaving leading whitespace in place — unlike `pyStrip`, which models
the `line.strip()` the code actually performs. -/
def trailingTrimmed (s : String) : String :=
  ⟨(s.data.reverse.dropWhile isPySpace).reverse⟩

/-! ### Lemmas about the split primitive -/

theorem splitCh_ne_nil (c : Char) (l : List Char) : splitCh c l ≠ [] := by
  induction l with
  | nil => simp [splitCh]
  | cons x xs ih =>
    cases h : splitCh c xs with
    | nil => exact absurd h ih
    | cons y ys =>
      simp only [splitCh, h]
      split <;> simp

theorem splitCh_append (c : Char) (a b : List Char) :
    splitCh c (a ++ c :: b) = splitCh c a ++ splitCh c b := by
  induction a with
  | nil =>
    cases h : splitCh c b with
    | nil => exact absurd h (splitCh_ne_nil c b)
    | cons y ys => simp [splitCh, h]
  | cons x a ih =>
    cases h : splitCh c a with
    | nil => exact absurd h (splitCh_ne_nil c a)
    | cons y ys =>
      simp only [List.cons_append, splitCh, List.append_eq]
      rw [ih, h]
      simp only [List.cons_append]
      split <;> simp

theorem splitCh_of_not_mem {c : Char} {l : List Char} (h : c ∉ l) :
    splitCh c l = [l] := by
  induction l with
  | nil => rfl
  | cons x xs ih =>
    rw [List.mem_cons, not_or] at h
    obtain ⟨hx, hxs⟩ := h
    have hx' : x ≠ c := fun e => hx e.symm
    simp [splitCh, ih hxs, hx']

theorem not_mem_of_mem_splitCh (c : Char) (l : List Char) :
    ∀ p ∈ splitCh c l, c ∉ p := by
  induction l with
  | nil =>
    intro p hp
    simp only [splitCh, List.mem_singleton] at hp
    simp [hp]
  | cons x xs ih =>
    intro p hp
    cases h : splitCh c xs with
    | nil => exact absurd h (splitCh_ne_nil c xs)
    | cons y ys =>
      simp only [splitCh, h] at hp
      by_cases hx : x = c
      · rw [if_pos hx] at hp
        rcases List.mem_cons.mp hp with rfl | hm
        · simp
        · exact ih p (h ▸ hm)
      · rw [if_neg hx] at hp
        rcases List.mem_cons.mp hp with rfl | hm
        · intro hc
          rcases List.mem_cons.mp hc with rfl | hcy
          · exact hx rfl
          · exact ih y (h ▸ List.mem_cons_self y ys) hcy
        · exact ih p (h ▸ List.mem_cons_of_mem y hm)

theorem str_append_assoc (a b c : String) : a ++ b ++ c = a ++ (b ++ c) := by
  apply String.ext
  simp [String.data_append, List.append_assoc]

theorem pySplit_append (c : Char) (x y : String) :
    pySplit c (x ++ (⟨[c]⟩ : String) ++ y) = pySplit c x ++ pySplit c y := by
  unfold pySplit
  rw [str_append_assoc, String.data_append, String.data_append]
  rw [show ((⟨[c]⟩ : String).data ++ y.data) = c :: y.data from rfl]
  rw [splitCh_append, List.map_append]

theorem pySplit_eq_single {c : Char} {y : String} (hy : c ∉ y.data) :
    pySplit c y = [y] := by
  unfold pySplit
  rw [splitCh_of_not_mem hy]
  rfl

theorem mem_pySplit_not_mem (c : Char) (s : String) :
    ∀ f ∈ pySplit c s, c ∉ f.data := by
  intro f hf
  unfold pySplit at hf
  rw [List.mem_map] at hf
  obtain ⟨p, hp, rfl⟩ := hf
  exact not_mem_of_mem_splitCh c s.data p hp

theorem pySplit_append_single (c : Char) (x y : String) (hy : c ∉ y.data) :
    pySplit c (x ++ (⟨[c]⟩ : String) ++ y) = pySplit c x ++ [y] := by
  rw [pySplit_append, pySplit_eq_single hy]

/-! ### The frequency column contains no tab and no newline -/

theorem digCh_isDigit {n : Nat} (h : n < 10) : (digCh n).isDigit = true := by
  interval_cases n <;> decide

theorem natCharsAux_digits :
    ∀ fuel n (acc : List Char), (∀ ch ∈ acc, ch.isDigit = true) →
      ∀ ch ∈ natCharsAux fuel n acc, ch.isDigit = true := by
  intro fuel
  induction fuel with
  | zero =>
    intro n acc hacc ch hch
    simp only [natCharsAux] at hch
    exact hacc ch hch
  | succ f ih =>
    intro n acc hacc ch hch
    simp only [natCharsAux] at hch
    by_cases h : n < 10
    · rw [if_pos h] at hch
      rcases List.mem_cons.mp hch with rfl | hm
      · exact digCh_isDigit h
      · exact hacc ch hm
    · rw [if_neg h] at hch
      refine ih (n / 10) _ ?_ ch hch
      intro d hd
      rcases List.mem_cons.mp hd with rfl | hm
      · exact digCh_isDigit (Nat.mod_lt n (by norm_num))
      · exact hacc d hm

theorem natStr_digits (n : Nat) : ∀ ch ∈ (natStr n).data, ch.isDigit = true :=
  natCharsAux_digits (n + 1) n [] (by simp)

theorem formatFreq2_chars (alt depth : Int) :
    ∀ ch ∈ (formatFreq2 alt depth).data,
      ch.isDigit = true ∨ ch = '-' ∨ ch = '.' := by
  intro ch hch
  unfold formatFreq2 at hch
  simp only [String.data_append] at hch
  rcases List.mem_append.mp hch with hm | hm
  · rcases List.mem_append.mp hm with hm | hm
    · rcases List.mem_append.mp hm with hm | hm
      · rcases List.mem_append.mp hm with hm | hm
        · split at hm <;> split at hm <;> simp_all
        · exact Or.inl (natStr_digits _ ch hm)
      · simp_all
    · split at hm <;> simp_all
  · exact Or.inl (natStr_digits _ ch hm)

theorem formatFreq2_no_tab (alt depth : Int) :
    '\t' ∉ (formatFreq2 alt depth).data := by
  intro hch
  rcases formatFreq2_chars alt depth '\t' hch with h | h | h <;> simp_all

/-! ### The calculator's success path -/

theorem pyJoin_pair (sep a b : String) : pyJoin sep [a, b] = a ++ sep ++ b := by
  rw [pyJoin, pyJoin, str_append_assoc]

theorem processLine_eq_of (line : String) (r a d : Int)
    (fmt8 sample9 ad_val dp_val : String) (ad_index dp_index : Nat)
    (h8 : (pySplit '\t' (pyStrip line))[8]? = some fmt8)
    (h9 : (pySplit '\t' (pyStrip line))[9]? = some sample9)
    (hAD : List.findIdx? (fun s => s = "AD") (pySplit ':' fmt8) = some ad_index)
    (hDP : List.findIdx? (fun s => s = "DP") (pySplit ':' fmt8) = some dp_index)
    (hvAD : (pySplit ':' sample9)[ad_index]? = some ad_val)
    (hpAD : parseAD ad_val = some (r, a))
    (hvDP : (pySplit ':' sample9)[dp_index]? = some dp_val)
    (hpDP : pyInt? dp_val = some d) :
    processLine line = if d = 0 then .crashDiv
      else .written (pyStrip line ++ "\t" ++ formatFreq2 a d ++ "%\n") := by
  simp only [processLine, h8, h9, hAD, hDP, hvAD, hpAD, hvDP, hpDP]

/-! ### `str.replace` on names whose only `.vcf` occurrence is the suffix -/

theorem leadsWith_append_left :
    ∀ (n t m : List Char), n.length ≤ t.length →
      leadsWith n (t ++ m) = leadsWith n t := by
  intro n
  induction n with
  | nil => intro t m _; rfl
  | cons a as ih =>
    intro t m h
    cases t with
    | nil => simp at h
    | cons b bs =>
      simp only [List.cons_append, leadsWith]
      by_cases hab : a = b
      · rw [if_pos hab, if_pos hab]
        exact ih bs m (by simpa using h)
      · rw [if_neg hab, if_neg hab]

theorem vcf_no_straddle (s : List Char) (hlen : s.length < 4)
    (hl : leadsWith ".vcf".data (s ++ ".vcf".data) = true) : s = [] := by
  match s with
  | [] => rfl
  | [a] =>
    exfalso
    rw [show ([a] ++ ".vcf".data) = a :: ".vcf".data from rfl, leadsWith,
      show leadsWith "vcf".data ".vcf".data = false from by decide] at hl
    simp at hl
  | [a, b] =>
    exfalso
    rw [show ([a, b] ++ ".vcf".data) = a :: b :: ".vcf".data from rfl,
      leadsWith, leadsWith,
      show leadsWith "cf".data ".vcf".data = false from by decide] at hl
    simp at hl
  | [a, b, c] =>
    exfalso
    rw [show ([a, b, c] ++ ".vcf".data) = a :: b :: c :: ".vcf".data from rfl,
      leadsWith, leadsWith, leadsWith,
      show leadsWith "f".data ".vcf".data = false from by decide] at hl
    simp at hl
  | _ :: _ :: _ :: _ :: _ => simp at hlen; omega

theorem hasSub_cons_false {needle : List Char} {x : Char} {xs : List Char}
    (h : hasSub needle (x :: xs) = false) :
    leadsWith needle (x :: xs) = false ∧ hasSub needle xs = false := by
  rw [hasSub, Bool.or_eq_false_iff] at h
  exact h

theorem replaceAux_vcf :
    ∀ (fuel : Nat) (l : List Char), (l ++ ".vcf".data).length ≤ fuel →
      hasSub ".vcf".data l = false →
      replaceAux ".vcf".data ".tab".data fuel (l ++ ".vcf".data) =
        l ++ ".tab".data := by
  intro fuel
  induction fuel with
  | zero =>
    intro l hlen _
    exfalso
    rw [List.length_append, show (".vcf".data).length = 4 from by decide] at hlen
    omega
  | succ f ih =>
    intro l hlen hsub
    cases l with
    | nil =>
      show replaceAux ".vcf".data ".tab".data (f + 1) ".vcf".data = ".tab".data
      rw [show (".vcf".data : List Char) = '.' :: "vcf".data from rfl, replaceAux]
      rw [show (!(('.' :: "vcf".data).isEmpty) &&
        leadsWith ('.' :: "vcf".data) ('.' :: "vcf".data)) = true from by decide]
      simp only [if_true]
      rw [show List.drop (('.' :: "vcf".data).length - 1) "vcf".data = [] from rfl]
      simp [replaceAux]
    | cons x l =>
      have hsub' := hasSub_cons_false hsub
      have hnolead : leadsWith ".vcf".data (x :: (l ++ ".vcf".data)) = false := by
        rw [← List.cons_append]
        by_cases hc : 4 ≤ (x :: l).length
        · rw [leadsWith_append_left _ _ _ (by simpa using hc)]
          exact hsub'.1
        · cases hl : leadsWith ".vcf".data ((x :: l) ++ ".vcf".data) with
          | false => rfl
          | true =>
            have h0 := vcf_no_straddle (x :: l) (by omega) hl
            simp at h0
      rw [List.cons_append, replaceAux, hnolead, Bool.and_false]
      simp only [Bool.false_eq_true, if_false]
      rw [List.cons_append]
      exact congrArg (List.cons x) (ih l (by simp at hlen ⊢; omega) hsub'.2)

theorem written_out_shape (stripped f2 : String) (hf : '\t' ∉ f2.data) :
    ∃ fcol : String, '\t' ∉ fcol.data ∧
      stripped ++ "\t" ++ f2 ++ "%\n" = stripped ++ "\t" ++ fcol ++ "\n" ∧
      pySplit '\t' (stripped ++ "\t" ++ fcol) = pySplit '\t' stripped ++ [fcol] := by
  have hfc : '\t' ∉ (f2 ++ "%").data := by
    intro hc
    rw [String.data_append] at hc
    rcases List.mem_append.mp hc with hm | hm
    · exact hf hm
    · rw [show ("%" : String).data = ['%'] from rfl] at hm
      simp at hm
  refine ⟨f2 ++ "%", hfc, ?_, ?_⟩
  · rw [show ("%\n" : String) = "%" ++ "\n" from rfl]
    simp [str_append_assoc]
  · exact pySplit_append_single '\t' stripped (f2 ++ "%") hfc

/-! ### The claims -/

/-- C1: for every calculator input line with at least 10 tab-separated fields
(fields of the stripped line, as the code reads them), whose FORMAT field
(index 8) contains the names AD and DP, whose AD value in field 9 parses as
two comma-separated integers `r, a`, and whose DP value parses as a nonzero
integer `d`, `compute_allele_frequency` writes exactly one output line: the
input line, a tab, the value `100 * a / d` formatted with two decimal places
(`formatFreq2 a d`), a percent character, and a newline. -/
theorem c1_valid_line_appends_frequency (line : String) (r a d : Int)
    (fmt8 sample9 ad_val dp_val : String) (ad_index dp_index : Nat)
    (h8 : (pySplit '\t' (pyStrip line))[8]? = some fmt8)
    (h9 : (pySplit '\t' (pyStrip line))[9]? = some sample9)
    (hAD : List.findIdx? (fun s => s = "AD") (pySplit ':' fmt8) = some ad_index)
    (hDP : List.findIdx? (fun s => s = "DP") (pySplit ':' fmt8) = some dp_index)
    (hvAD : (pySplit ':' sample9)[ad_index]? = some ad_val)
    (hpAD : parseAD ad_val = some (r, a))
    (hvDP : (pySplit ':' sample9)[dp_index]? = some dp_val)
    (hpDP : pyInt? dp_val = some d)
    (hd : d ≠ 0) :
    processLine line =
      .written (pyStrip line ++ "\t" ++ formatFreq2 a d ++ "%\n") := by
  rw [processLine_eq_of line r a d fmt8 sample9 ad_val dp_val ad_index dp_index
    h8 h9 hAD hDP hvAD hpAD hvDP hpDP, if_neg hd]

/-- C1 witness: the line with `AD = 30,10` and `DP = 40` gets the appended
column `25.00%`. -/
theorem c1_witness :
    processLine "A\tB\tC\tD\tE\tF\tG\tH\tGT:AD:DP\t0/1:30,10:40\n" =
      .written (pyStrip "A\tB\tC\tD\tE\tF\tG\tH\tGT:AD:DP\t0/1:30,10:40\n" ++
        "\t" ++ formatFreq2 10 40 ++ "%\n") ∧
    formatFreq2 10 40 ++ "%" = "25.00%" :=
  ⟨c1_valid_line_appends_frequency
    "A\tB\tC\tD\tE\tF\tG\tH\tGT:AD:DP\t0/1:30,10:40\n" 30 10 40
    "GT:AD:DP" "0/1:30,10:40" "30,10" "40" 1 2
    (by decide) (by decide) (by decide) (by decide) (by decide) (by decide)
    (by decide) (by decide) (by decide), by decide⟩

/-- C2: evaluation at the failing input.  The claim (and the spec) say a line
with fewer than 10 tab-separated fields is caught by the per-line handler
(skip, diagnostic, continue).  In the code `fields[8]`/`fields[9]` are
evaluated before the `try` block, so the index error is raised outside the
handler: on the two-field line `chr1\t123` the whole file run aborts with no
output and no diagnostic, and the valid line that follows is never
processed. -/
theorem c2_short_row_crash_eval :
    processLine "chr1\t123\n" = .crashIndex ∧
    runFile "sample.tab"
      ["chr1\t123\n", "A\tB\tC\tD\tE\tF\tG\tH\tGT:AD:DP\t0/1:30,10:40\n"] =
      .crashed [] [] := by decide

/-- C3: a line that reaches the frequency computation (fields 8/9 present,
AD and DP found, AD parsed) whose DP value parses as 0 raises the division
error, which is not caught by the per-line handler: the file run aborts
instead of skipping the line. -/
theorem c3_zero_depth_uncaught (input_file line : String) (rest : List String)
    (r a : Int) (fmt8 sample9 ad_val dp_val : String) (ad_index dp_index : Nat)
    (h8 : (pySplit '\t' (pyStrip line))[8]? = some fmt8)
    (h9 : (pySplit '\t' (pyStrip line))[9]? = some sample9)
    (hAD : List.findIdx? (fun s => s = "AD") (pySplit ':' fmt8) = some ad_index)
    (hDP : List.findIdx? (fun s => s = "DP") (pySplit ':' fmt8) = some dp_index)
    (hvAD : (pySplit ':' sample9)[ad_index]? = some ad_val)
    (hpAD : parseAD ad_val = some (r, a))
    (hvDP : (pySplit ':' sample9)[dp_index]? = some dp_val)
    (hpDP : pyInt? dp_val = some 0) :
    processLine line = .crashDiv ∧
    runFile input_file (line :: rest) = .crashed [] [] := by
  have hp := processLine_eq_of line r a 0 fmt8 sample9 ad_val dp_val
    ad_index dp_index h8 h9 hAD hDP hvAD hpAD hvDP hpDP
  rw [if_pos rfl] at hp
  exact ⟨hp, by simp [runFile, hp]⟩

/-- C3 witness: `AD = 30,10`, `DP = 0` aborts the file run. -/
theorem c3_witness :
    processLine "A\tB\tC\tD\tE\tF\tG\tH\tGT:AD:DP\t0/1:30,10:0\n" = .crashDiv ∧
    runFile "sample.tab" ["A\tB\tC\tD\tE\tF\tG\tH\tGT:AD:DP\t0/1:30,10:0\n"] =
      .crashed [] [] :=
  c3_zero_depth_uncaught "sample.tab"
    "A\tB\tC\tD\tE\tF\tG\tH\tGT:AD:DP\t0/1:30,10:0\n" [] 30 10
    "GT:AD:DP" "0/1:30,10:0" "30,10" "0" 1 2
    (by decide) (by decide) (by decide) (by decide) (by decide) (by decide)
    (by decide) (by decide)

/-- C4: a line with at least 10 tab-separated fields whose FORMAT field lacks
the literal name AD or lacks DP is skipped: no output row is written for it, a
diagnostic naming the (stripped) line and the input file is printed, and
processing continues with the rest of the file unchanged. -/
theorem c4_missing_key_skip_log_continue (input_file line : String)
    (rest : List String) (fmt8 sample9 : String)
    (h8 : (pySplit '\t' (pyStrip line))[8]? = some fmt8)
    (h9 : (pySplit '\t' (pyStrip line))[9]? = some sample9)
    (hmiss : "AD" ∉ pySplit ':' fmt8 ∨ "DP" ∉ pySplit ':' fmt8) :
    processLine line = .skipped ∧
    outLines (runFile input_file (line :: rest)) =
      outLines (runFile input_file rest) ∧
    diagLines (runFile input_file (line :: rest)) =
      ("Error processing line: " ++ pyStrip line ++ " in " ++ input_file) ::
        diagLines (runFile input_file rest) ∧
    isAborted (runFile input_file (line :: rest)) =
      isAborted (runFile input_file rest) := by
  have hskip : processLine line = .skipped := by
    rcases hmiss with hm | hm
    · have hA : List.findIdx? (fun s => s = "AD") (pySplit ':' fmt8) = none := by
        rw [List.findIdx?_eq_none_iff]
        intro x hx
        rcases eq_or_ne x "AD" with rfl | hne
        · exact absurd hx hm
        · simp [hne]
      simp only [processLine, h8, h9, hA]
    · cases hA : List.findIdx? (fun s => s = "AD") (pySplit ':' fmt8) with
      | none => simp only [processLine, h8, h9, hA]
      | some i =>
        have hD : List.findIdx? (fun s => s = "DP") (pySplit ':' fmt8) = none := by
          rw [List.findIdx?_eq_none_iff]
          intro x hx
          rcases eq_or_ne x "DP" with rfl | hne
          · exact absurd hx hm
          · simp [hne]
        simp only [processLine, h8, h9, hA, hD]
  refine ⟨hskip, ?_⟩
  cases hr : runFile input_file rest <;>
    simp [runFile, hskip, hr, outLines, diagLines, isAborted]

/-- C4 witness: FORMAT `GT:AD` lacks DP; the line is skipped with a
diagnostic and the (empty) rest of the file is unaffected. -/
theorem c4_witness :
    processLine "A\tB\tC\tD\tE\tF\tG\tH\tGT:AD\t0/1:30,10\n" = .skipped ∧
    outLines (runFile "sample.tab" ["A\tB\tC\tD\tE\tF\tG\tH\tGT:AD\t0/1:30,10\n"]) =
      outLines (runFile "sample.tab" []) ∧
    diagLines (runFile "sample.tab" ["A\tB\tC\tD\tE\tF\tG\tH\tGT:AD\t0/1:30,10\n"]) =
      ("Error processing line: " ++
        pyStrip "A\tB\tC\tD\tE\tF\tG\tH\tGT:AD\t0/1:30,10\n" ++ " in " ++
        "sample.tab") :: diagLines (runFile "sample.tab" []) ∧
    isAborted (runFile "sample.tab" ["A\tB\tC\tD\tE\tF\tG\tH\tGT:AD\t0/1:30,10\n"]) =
      isAborted (runFile "sample.tab" []) :=
  c4_missing_key_skip_log_continue "sample.tab"
    "A\tB\tC\tD\tE\tF\tG\tH\tGT:AD\t0/1:30,10\n" [] "GT:AD" "0/1:30,10"
    (by decide) (by decide) (Or.inr (by decide))

/-- C5: an extractor input line not starting with `##`, with at least two
tab-separated fields, is written as field 0, a tab, field 1 and a newline;
splitting the written record on tabs gives back exactly the two columns. -/
theorem c5_extractor_keeps_first_two_fields (line f0 f1 : String)
    (rest : List String)
    (hns : pyStartsWith line "##" = false)
    (hsplit : pySplit '\t' (pyStrip line) = f0 :: f1 :: rest) :
    extract_line line = some (f0 ++ "\t" ++ f1 ++ "\n") ∧
    pySplit '\t' (f0 ++ "\t" ++ f1) = [f0, f1] := by
  have hf0 : '\t' ∉ f0.data :=
    mem_pySplit_not_mem '\t' (pyStrip line) f0
      (by rw [hsplit]; exact List.mem_cons_self _ _)
  have hf1 : '\t' ∉ f1.data :=
    mem_pySplit_not_mem '\t' (pyStrip line) f1
      (by rw [hsplit]; exact List.mem_cons_of_mem _ (List.mem_cons_self _ _))
  constructor
  · unfold extract_line
    simp only [hns, Bool.false_eq_true, if_false, ite_self]
    rw [hsplit]
    simp [pyJoin]
  · have h := pySplit_append_single '\t' f0 f1 hf1
    rw [pySplit_eq_single hf0] at h
    exact h

/-- C5 witness: the spec's scenario line `chr1\t12345\tA\tG`. -/
theorem c5_witness :
    extract_line "chr1\t12345\tA\tG\n" = some ("chr1" ++ "\t" ++ "12345" ++ "\n") ∧
    pySplit '\t' ("chr1" ++ "\t" ++ "12345") = ["chr1", "12345"] :=
  c5_extractor_keeps_first_two_fields "chr1\t12345\tA\tG\n" "chr1" "12345"
    ["A", "G"] (by decide) (by decide)

/-- C6 counterexample: the claim says the output record is the input line
trimmed of TRAILING whitespace plus one appended column.  The code uses
`line.strip()`, which also removes leading whitespace: on a line with a
leading space the written record does not even start with the
trailing-trimmed input line. -/
theorem c6_counterexample :
    processLine " A\tB\tC\tD\tE\tF\tG\tH\tGT:AD:DP\t0/1:30,10:40\n" =
      .written "A\tB\tC\tD\tE\tF\tG\tH\tGT:AD:DP\t0/1:30,10:40\t25.00%\n" ∧
    leadsWith
      (trailingTrimmed " A\tB\tC\tD\tE\tF\tG\tH\tGT:AD:DP\t0/1:30,10:40\n").data
      "A\tB\tC\tD\tE\tF\tG\tH\tGT:AD:DP\t0/1:30,10:40\t25.00%\n".data =
      false := by decide

/-- C6 amended: every successfully written calculator record is the input
line trimmed of LEADING AND TRAILING whitespace — all its tab-separated
columns retained unchanged and in order — followed by exactly one appended
trailing column (which contains no tab). -/
theorem c6_amended_strip_both_ends (line out : String)
    (h : processLine line = .written out) :
    ∃ fcol : String, '\t' ∉ fcol.data ∧
      out = pyStrip line ++ "\t" ++ fcol ++ "\n" ∧
      pySplit '\t' (pyStrip line ++ "\t" ++ fcol) =
        pySplit '\t' (pyStrip line) ++ [fcol] := by
  simp only [processLine] at h
  split at h
  · exact LineResult.noConfusion h
  split at h
  · exact LineResult.noConfusion h
  split at h
  · exact LineResult.noConfusion h
  split at h
  · exact LineResult.noConfusion h
  split at h
  · exact LineResult.noConfusion h
  split at h
  · exact LineResult.noConfusion h
  split at h
  · exact LineResult.noConfusion h
  split at h
  · exact LineResult.noConfusion h
  split at h
  · exact LineResult.noConfusion h
  rw [LineResult.written.injEq] at h
  subst h
  exact written_out_shape (pyStrip line) (formatFreq2 _ _)
    (formatFreq2_no_tab _ _)

/-- C6 amended, witness at a concrete successfully processed line. -/
theorem c6_witness :
    ∃ fcol : String, '\t' ∉ fcol.data ∧
      "A\tB\tC\tD\tE\tF\tG\tH\tGT:AD:DP\t0/1:30,10:40\t25.00%\n" =
        pyStrip "A\tB\tC\tD\tE\tF\tG\tH\tGT:AD:DP\t0/1:30,10:40\n" ++ "\t" ++
          fcol ++ "\n" ∧
      pySplit '\t'
          (pyStrip "A\tB\tC\tD\tE\tF\tG\tH\tGT:AD:DP\t0/1:30,10:40\n" ++ "\t" ++
            fcol) =
        pySplit '\t' (pyStrip "A\tB\tC\tD\tE\tF\tG\tH\tGT:AD:DP\t0/1:30,10:40\n")
          ++ [fcol] :=
  c6_amended_strip_both_ends "A\tB\tC\tD\tE\tF\tG\tH\tGT:AD:DP\t0/1:30,10:40\n"
    "A\tB\tC\tD\tE\tF\tG\tH\tGT:AD:DP\t0/1:30,10:40\t25.00%\n" (by decide)

/-- C7 counterexample: the extractor derives the output name with
`filename.replace('.vcf', '.tab')`, which replaces EVERY occurrence, not
just the suffix: `sample.vcf.vcf` becomes `sample.tab.tab`, not the
suffix-substituted `sample.vcf.tab`. -/
theorem c7_counterexample :
    outputTabName "sample.vcf.vcf" = "sample.tab.tab" ∧
    outputTabName "sample.vcf.vcf" ≠ "sample.vcf" ++ ".tab" := by decide

/-- C7 amended: the output name replaces every occurrence of `.vcf` with
`.tab`; when the only occurrence of `.vcf` in the filename is its trailing
suffix, this equals the input name minus `.vcf` plus `.tab`. -/
theorem c7_amended_replace_all (stem : String)
    (h : hasSub ".vcf".data stem.data = false) :
    outputTabName (stem ++ ".vcf") = stem ++ ".tab" := by
  unfold outputTabName pyReplace
  apply String.ext
  show replaceAux ".vcf".data ".tab".data (stem ++ ".vcf").data.length
      (stem ++ ".vcf").data = (stem ++ ".tab").data
  rw [String.data_append, String.data_append]
  exact replaceAux_vcf (stem.data ++ ".vcf".data).length stem.data (le_refl _) h

/-- C7 amended, witness: `sample.vcf` maps to `sample.tab`. -/
theorem c7_witness :
    hasSub ".vcf".data ("sample" : String).data = false ∧
    outputTabName ("sample" ++ ".vcf") = "sample" ++ ".tab" :=
  ⟨by decide, c7_amended_replace_all "sample" (by decide)⟩

/-- C8 counterexample: on a directory with the three files `a.vcf`, `b.vcf`,
`c.vcf`, the extractor's console output is three per-file progress lines;
none of them even contains the character `3`, so no summary message with
count 3 is reported (the count summary belongs to the calculator script). -/
theorem c8_counterexample :
    extractorConsole ["a.vcf", "b.vcf", "c.vcf"] =
      ["Processed ./a.vcf -> ./a.tab", "Processed ./b.vcf -> ./b.tab",
        "Processed ./c.vcf -> ./c.tab"] ∧
    hasSub ['3']
      ("Processed ./a.vcf -> ./a.tab" ++ "Processed ./b.vcf -> ./b.tab" ++
        "Processed ./c.vcf -> ./c.tab").data = false := by decide

/-- C8 amended: the extractor prints exactly one per-file progress message
per processed `.vcf` file (so 3 files yield 3 messages), and no aggregate
count summary. -/
theorem c8_amended_per_file_messages (listing : List String) :
    (extractorConsole listing).length =
      (listing.filter (fun f => pyEndsWith f ".vcf")).length := by
  unfold extractorConsole
  exact List.length_map _ _

/-- C9: a line with exactly 10 tab-separated columns whose 10th column is
empty and last on the line: `line.strip()` removes the trailing tab before
splitting, so the effective field count is 9 and the line takes the same
path (`crashIndex`, the uncaught `fields[9]` index error) as a genuine
9-column short row, instead of being processed as a valid record. -/
theorem c9_trailing_empty_column_short_row :
    pySplit '\t' "A\tB\tC\tD\tE\tF\tG\tH\tGT:AD:DP\t" =
      ["A", "B", "C", "D", "E", "F", "G", "H", "GT:AD:DP", ""] ∧
    (pySplit '\t' (pyStrip "A\tB\tC\tD\tE\tF\tG\tH\tGT:AD:DP\t\n")).length = 9 ∧
    processLine "A\tB\tC\tD\tE\tF\tG\tH\tGT:AD:DP\t\n" = .crashIndex ∧
    processLine "A\tB\tC\tD\tE\tF\tG\tH\tGT:AD:DP\n" = .crashIndex := by decide

/-- C10: no range validation on the parsed counts: whenever the line parses
(AD as `r, a`, DP as nonzero `d`), an output line is written even when `a`
is negative or exceeds `d`, and no diagnostic is emitted for it. -/
theorem c10_no_range_validation (input_file line : String) (rest : List String)
    (r a d : Int) (fmt8 sample9 ad_val dp_val : String) (ad_index dp_index : Nat)
    (h8 : (pySplit '\t' (pyStrip line))[8]? = some fmt8)
    (h9 : (pySplit '\t' (pyStrip line))[9]? = some sample9)
    (hAD : List.findIdx? (fun s => s = "AD") (pySplit ':' fmt8) = some ad_index)
    (hDP : List.findIdx? (fun s => s = "DP") (pySplit ':' fmt8) = some dp_index)
    (hvAD : (pySplit ':' sample9)[ad_index]? = some ad_val)
    (hpAD : parseAD ad_val = some (r, a))
    (hvDP : (pySplit ':' sample9)[dp_index]? = some dp_val)
    (hpDP : pyInt? dp_val = some d)
    (hd : d ≠ 0)
    (_hrange : a < 0 ∨ d < a) :
    processLine line =
      .written (pyStrip line ++ "\t" ++ formatFreq2 a d ++ "%\n") ∧
    diagLines (runFile input_file (line :: rest)) =
      diagLines (runFile input_file rest) := by
  have hw : processLine line =
      .written (pyStrip line ++ "\t" ++ formatFreq2 a d ++ "%\n") := by
    rw [processLine_eq_of line r a d fmt8 sample9 ad_val dp_val ad_index dp_index
      h8 h9 hAD hDP hvAD hpAD hvDP hpDP, if_neg hd]
  refine ⟨hw, ?_⟩
  cases hr : runFile input_file rest <;> simp [runFile, hw, hr, diagLines]

/-- C10 witness: `AD = 30,-10`, `DP = 40` yields the out-of-range column
`-25.00%` with no diagnostic. -/
theorem c10_witness :
    (processLine "A\tB\tC\tD\tE\tF\tG\tH\tGT:AD:DP\t0/1:30,-10:40\n" =
      .written (pyStrip "A\tB\tC\tD\tE\tF\tG\tH\tGT:AD:DP\t0/1:30,-10:40\n" ++
        "\t" ++ formatFreq2 (-10) 40 ++ "%\n") ∧
    diagLines (runFile "sample.tab"
        ["A\tB\tC\tD\tE\tF\tG\tH\tGT:AD:DP\t0/1:30,-10:40\n"]) =
      diagLines (runFile "sample.tab" [])) ∧
    formatFreq2 (-10) 40 ++ "%" = "-25.00%" :=
  ⟨c10_no_range_validation "sample.tab"
    "A\tB\tC\tD\tE\tF\tG\tH\tGT:AD:DP\t0/1:30,-10:40\n" [] 30 (-10) 40
    "GT:AD:DP" "0/1:30,-10:40" "30,-10" "40" 1 2
    (by decide) (by decide) (by decide) (by decide) (by decide) (by decide)
    (by decide) (by decide) (by decide) (Or.inl (by decide)), by decide⟩

end Genomics
